import Mathlib

/-!
Verification of the task-distribution broker (load_balancer.py, worker.py,
client.py) against its natural-language specification.

The embedding works on `List Char` as the model of Python `str`.  Python
string operations used by the source (`strip`, `split` with and without a
maxsplit bound, `int(...)` parsing) are modelled character by character.
Sockets are modelled as natural-number handles; whether a `send` on a handle
succeeds is an explicit parameter `alive : Nat → Bool`.  The broker's shared
state (the worker queue and the task-to-client dict) is modelled as lists,
with Python dict semantics (insertion order, in-place overwrite on an
existing key) made explicit.
-/

namespace PFO3

/-- Whitespace characters stripped by Python's default `str.strip()`
(restricted to the ASCII range, which covers the wire protocol). -/
def pyIsSpace (c : Char) : Bool :=
  c = ' ' || c = '\t' || c = '\n' || c = '\r' || c = '\x0b' || c = '\x0c'

/-- Python `str.strip()`: drop leading and trailing whitespace. -/
def pyStrip (s : List Char) : List Char :=
  ((s.dropWhile pyIsSpace).reverse.dropWhile pyIsSpace).reverse

/-- Split a string at the first occurrence of `sep`; `none` when `sep`
does not occur. -/
def splitFirst (sep : Char) : List Char → Option (List Char × List Char)
  | [] => none
  | c :: cs =>
    if c = sep then some ([], cs)
    else
      match splitFirst sep cs with
      | none => none
      | some (a, b) => some (c :: a, b)

/-- Python `s.split(sep, maxsplit)`: at most `maxsplit` splits, the last
part takes the remainder verbatim. -/
def pySplitMax (sep : Char) : Nat → List Char → List (List Char)
  | 0, s => [s]
  | n + 1, s =>
    match splitFirst sep s with
    | none => [s]
    | some (a, b) => a :: pySplitMax sep n b

/-- Python `s.split(sep)` with no maxsplit: split at every occurrence of
`sep` (so `"".split(sep) = [""]`). -/
def pySplitAll (sep : Char) : List Char → List (List Char)
  | [] => [[]]
  | c :: cs =>
    if c = sep then [] :: pySplitAll sep cs
    else
      match pySplitAll sep cs with
      | [] => [[c]]
      | h :: t => (c :: h) :: t

/-- Decimal digit test. -/
def isDigitChar (c : Char) : Bool := '0' ≤ c && c ≤ '9'

/-- Digit sequence accepted by Python `int`, with single underscores
allowed between digits (`"1_000"`), but not leading, trailing or doubled.
Returns the digits with the underscores removed. -/
def undDigits : List Char → Option (List Char)
  | [] => none
  | [c] => if isDigitChar c then some [c] else none
  | c :: '_' :: cs =>
    if isDigitChar c then
      match cs with
      | c2 :: _ => if isDigitChar c2 then (undDigits cs).map (fun l => c :: l) else none
      | [] => none
    else none
  | c :: cs =>
    if isDigitChar c then (undDigits cs).map (fun l => c :: l) else none

/-- Numeric value of a digit string. -/
def digitsVal (l : List Char) : Nat :=
  l.foldl (fun acc c => 10 * acc + (c.toNat - '0'.toNat)) 0

/-- Python `int(s)` on a string: strips whitespace, accepts an optional
sign followed by a nonempty digit sequence (underscore separators
allowed); anything else raises `ValueError`, modelled as `none`. -/
def pyInt (s : List Char) : Option Int :=
  match pyStrip s with
  | '+' :: r => (undDigits r).map (fun d => (digitsVal d : Int))
  | '-' :: r => (undDigits r).map (fun d => -(digitsVal d : Int))
  | r => (undDigits r).map (fun d => (digitsVal d : Int))

/-- Python `str(n)` for an int, as a character list. -/
def intStr (n : Int) : List Char := (toString n).data

/-- Keys of an association-list model of a Python dict. -/
def keysOf {β : Type} (d : List (List Char × β)) : List (List Char) :=
  d.map Prod.fst

/-- Lookup in the dict model (first matching key). -/
def assocLookup {β : Type} : List (List Char × β) → List Char → Option β
  | [], _ => none
  | (k', v) :: rest, k => if k' = k then some v else assocLookup rest k

/-- Remove the entry for `k` (every occurrence; under the dict invariant
of unique keys there is at most one). -/
def assocErase {β : Type} (d : List (List Char × β)) (k : List Char) :
    List (List Char × β) :=
  d.filter (fun p => decide (p.1 ≠ k))

/-- Python `d[k] = v`: overwrite in place when `k` is present (keeping its
position, as Python dicts preserve insertion order), else append. -/
def dictSet {β : Type} (d : List (List Char × β)) (k : List Char) (v : β) :
    List (List Char × β) :=
  if (assocLookup d k).isSome then
    d.map (fun p => if p.1 = k then (k, v) else p)
  else d ++ [(k, v)]

/-- Python `d.pop(k, None)`: return the mapped value (or `none`) and the
dict with the entry removed. -/
def dictPop {β : Type} (d : List (List Char × β)) (k : List Char) :
    Option β × List (List Char × β) :=
  (assocLookup d k, assocErase d k)

/-! Wire messages, exactly as built by the f-strings in the source. -/

/-- Message `TASK|task_id|task_data\n` sent by client.py send_task. -/
def taskMsg (task_id task_data : List Char) : List Char :=
  ("TASK|").data ++ task_id ++ [ '|' ] ++ task_data ++ [ '\n' ]

/-- Message `ASSIGN_TASK|task_id|task_data\n` sent by
LoadBalancer._assign_task_to_worker. -/
def assignMsg (task_id task_data : List Char) : List Char :=
  ("ASSIGN_TASK|").data ++ task_id ++ [ '|' ] ++ task_data ++ [ '\n' ]

/-- Message `TASK_RESULT|task_id|result_data\n` sent by Worker.start. -/
def taskResultMsg (task_id result_data : List Char) : List Char :=
  ("TASK_RESULT|").data ++ task_id ++ [ '|' ] ++ result_data ++ [ '\n' ]

/-- Message `RESULT|task_id|result_data\n` sent by
LoadBalancer._send_result_to_client. -/
def resultMsg (task_id result_data : List Char) : List Char :=
  ("RESULT|").data ++ task_id ++ [ '|' ] ++ result_data ++ [ '\n' ]

/-- Message `ACK|worker_id\n` sent by LoadBalancer._handle_worker. -/
def ackMsg (worker_id : List Char) : List Char :=
  ("ACK|").data ++ worker_id ++ [ '\n' ]

/-- Message `REGISTER|worker_id\n` sent by Worker.connect. -/
def registerMsg (worker_id : List Char) : List Char :=
  ("REGISTER|").data ++ worker_id ++ [ '\n' ]

/-! Worker (worker.py). -/

/-- The list comprehension `[int(x.strip()) for x in task_data.split(',')]`:
parse each piece left to right, aborting at the first `ValueError`. -/
def parseInts : List (List Char) → Option (List Int)
  | [] => some []
  | x :: xs =>
    match pyInt (pyStrip x) with
    | none => none
    | some n => (parseInts xs).map (fun ns => n :: ns)

/-- Worker.process_task: splits the payload on commas, strips each piece
and parses it with `int`; on success returns `str(sum(numbers))`, on a
`ValueError` returns the `ERROR: `-prefixed message built from CPython's
`invalid literal` error text for the first failing piece. -/
def process_task (task_data : List Char) : List Char :=
  let pieces := pySplitAll ',' task_data
  match parseInts pieces with
  | some ns => intStr ns.sum
  | none =>
    let bad := (pieces.find? (fun x => (pyInt (pyStrip x)).isNone)).getD []
    ("ERROR: invalid literal for int() with base 10: ").data ++
      [ '\'' ] ++ pyStrip bad ++ [ '\'' ]

/-- One iteration of the Worker.start loop on a received line: decode
`ASSIGN_TASK|task_id|task_data` (split with maxsplit 2 after strip);
on success return the `TASK_RESULT` reply for the processed task, on a
malformed line return `none` (the worker logs and continues). -/
def workerHandleAssign (data : List Char) : Option (List Char) :=
  let parts := pySplitMax '|' 2 (pyStrip data)
  match parts with
  | [tag, task_id, task_data] =>
    if tag = ("ASSIGN_TASK").data then
      some (taskResultMsg task_id (process_task task_data))
    else none
  | _ => none

/-! Load balancer (load_balancer.py).  A socket is a `Nat` handle; `alive
s = false` means a `send` on `s` raises `OSError`.  The worker pool
(`queue.Queue` of `(socket, worker_id)` tuples) is a FIFO list whose head
is the next element returned by `get`; the task-to-client dict is an
association list with Python dict semantics. -/

/-- An entry of the worker pool: the worker socket and its id. -/
abbrev WorkerEntry : Type := Nat × List Char

/-- The idle-worker pool (head = front of the queue). -/
abbrev Pool : Type := List WorkerEntry

/-- The task-to-client dict mapping a task id to the client socket. -/
abbrev Ledger : Type := List (List Char × Nat)

/-- queue.Queue.get with a timeout bound, on the pool model: removes and
returns the head, or yields the explicit empty outcome `none` when the
pool is empty (after blocking at most `timeoutSecs`, which does not
change the returned value in this sequential model). -/
def acquire (timeoutSecs : Nat) (pool : Pool) : Option WorkerEntry × Pool :=
  match timeoutSecs, pool with
  | _, [] => (none, [])
  | _, w :: rest => (some w, rest)

/-- The `get` timeout used by _assign_task_to_worker (seconds). -/
def acquireTimeoutSecs : Nat := 5

/-- The threading.Timer delay used for the no-worker retry (seconds). -/
def retryDelaySecs : Nat := 1

/-- Outcome of one run of LoadBalancer._assign_task_to_worker. -/
inductive AssignOutcome : Type where
  /-- A worker was taken from the queue and the `ASSIGN_TASK` message was
  sent on its socket successfully. -/
  | assigned (wsock : Nat) (wid : List Char) (msg : List Char)
  /-- queue.Empty was raised: a Timer re-runs _assign_task_to_worker with
  the same arguments after `delaySecs` seconds. -/
  | retryScheduled (delaySecs : Nat) (task_id task_data : List Char)
  /-- The `send` to the acquired worker raised OSError, which is not
  caught by _assign_task_to_worker and propagates to its caller. -/
  | raised (wsock : Nat) (wid : List Char)
  deriving DecidableEq

/-- LoadBalancer._assign_task_to_worker: `get` a worker from the queue
with a 5 s timeout and send `ASSIGN_TASK|task_id|task_data`; only
queue.Empty is caught (scheduling a 1 s retry with the same task);
a send failure propagates, and the acquired worker — already removed
from the queue by `get` — is not re-inserted. -/
def assignTask (alive : Nat → Bool) (pool : Pool) (task_id task_data : List Char) :
    AssignOutcome × Pool :=
  match acquire acquireTimeoutSecs pool with
  | (none, p) => (AssignOutcome.retryScheduled retryDelaySecs task_id task_data, p)
  | (some (ws, wid), p) =>
    if alive ws then (AssignOutcome.assigned ws wid (assignMsg task_id task_data), p)
    else (AssignOutcome.raised ws wid, p)

/-- Sequential dispatch of a list of `(task_id, task_data)` pairs with no
completions in between (so no worker is ever put back). -/
def dispatchAll (alive : Nat → Bool) (pool : Pool) :
    List (List Char × List Char) → List AssignOutcome × Pool
  | [] => ([], pool)
  | t :: ts =>
    let r := assignTask alive pool t.1 t.2
    let rest := dispatchAll alive r.2 ts
    (r.1 :: rest.1, rest.2)

/-- Outcome of LoadBalancer._send_result_to_client. -/
inductive SendOutcome : Type where
  /-- The client was found in the dict and `RESULT|task_id|result_data`
  was sent to it successfully. -/
  | sent (csock : Nat) (msg : List Char)
  /-- The client was found but the send raised; the exception is caught
  and logged inside _send_result_to_client. -/
  | sendFailedLogged (csock : Nat)
  /-- `task_to_client.pop` returned None: no client for this task id; a
  log line is emitted and nothing else happens. -/
  | noClient
  deriving DecidableEq

/-- LoadBalancer._send_result_to_client: pop the task id from the
task-to-client dict (removing the entry); when a client socket is found,
send `RESULT|task_id|result_data` to it, catching any send failure. -/
def sendResultToClient (alive : Nat → Bool) (ledger : Ledger)
    (task_id result_data : List Char) : SendOutcome × Ledger :=
  match dictPop ledger task_id with
  | (none, l) => (SendOutcome.noClient, l)
  | (some cs, l) =>
    if alive cs then (SendOutcome.sent cs (resultMsg task_id result_data), l)
    else (SendOutcome.sendFailedLogged cs, l)

/-- Outcome of the registration phase of LoadBalancer._handle_worker. -/
inductive RegOutcome : Type where
  /-- First line was a well-formed `REGISTER|worker_id`: `ACK|worker_id`
  was sent and the worker was put into the pool. -/
  | registered (wid : List Char) (ack : List Char)
  /-- Empty first read or malformed registration line: the handler
  returns without touching the pool. -/
  | aborted
  /-- The ACK send raised; the exception ends the handler before the
  worker is put into the pool. -/
  | ackRaised
  deriving DecidableEq

/-- Registration phase of LoadBalancer._handle_worker: the first received
line must strip-and-split (on every `|`, no maxsplit) to exactly
`["REGISTER", worker_id]`; then `ACK|worker_id` is sent and, if the send
succeeded, `(socket, worker_id)` is put at the tail of the pool.  In
every other case the pool is unchanged and the session never enters it. -/
def handleWorkerRegistration (alive : Nat → Bool) (pool : Pool) (wsock : Nat)
    (data : List Char) : RegOutcome × Pool :=
  if data = [] then (RegOutcome.aborted, pool)
  else
    match pySplitAll '|' (pyStrip data) with
    | [tag, wid] =>
      if tag = ("REGISTER").data then
        if alive wsock then
          (RegOutcome.registered wid (ackMsg wid), pool ++ [(wsock, wid)])
        else (RegOutcome.ackRaised, pool)
      else (RegOutcome.aborted, pool)
    | _ => (RegOutcome.aborted, pool)

/-- Register a list of workers in order, each via its `REGISTER` line. -/
def registerAll (alive : Nat → Bool) (pool : Pool) : List WorkerEntry → Pool
  | [] => pool
  | (s, w) :: rest =>
    registerAll alive (handleWorkerRegistration alive pool s (registerMsg w)).2 rest

/-- Outcome of one iteration of the result loop of
LoadBalancer._handle_worker. -/
inductive WorkerLoopOutcome : Type where
  /-- Empty read: the loop breaks; the finally block closes the socket
  but does not remove the worker from the pool. -/
  | closed
  /-- The line did not decode as `TASK_RESULT|...|...`: `continue`, with
  no state change. -/
  | ignoredMalformed
  /-- A `TASK_RESULT` was handled: the result of
  _send_result_to_client, followed by putting the worker back into
  the pool. -/
  | handled (send : SendOutcome)
  deriving DecidableEq

/-- State after one iteration of the result loop. -/
structure WorkerStep : Type where
  outcome : WorkerLoopOutcome
  ledger : Ledger
  pool : Pool
  deriving DecidableEq

/-- One iteration of the result loop of LoadBalancer._handle_worker:
an empty read breaks the loop (the worker is NOT removed from the pool —
the source only closes the socket, its final comment notwithstanding);
a line that does not strip-and-split (maxsplit 2) to
`TASK_RESULT|task_id|result` is skipped; otherwise the result is routed
via _send_result_to_client and the worker is put back at the tail of
the pool. -/
def handleWorkerResult (alive : Nat → Bool) (ledger : Ledger) (pool : Pool)
    (wsock : Nat) (wid : List Char) (data : List Char) : WorkerStep :=
  if data = [] then ⟨WorkerLoopOutcome.closed, ledger, pool⟩
  else
    match pySplitMax '|' 2 (pyStrip data) with
    | [tag, task_id, result_data] =>
      if tag = ("TASK_RESULT").data then
        let r := sendResultToClient alive ledger task_id result_data
        ⟨WorkerLoopOutcome.handled r.1, r.2, pool ++ [(wsock, wid)]⟩
      else ⟨WorkerLoopOutcome.ignoredMalformed, ledger, pool⟩
    | _ => ⟨WorkerLoopOutcome.ignoredMalformed, ledger, pool⟩

/-- Outcome of one iteration of the client loop of
LoadBalancer._handle_client. -/
inductive ClientLoopOutcome : Type where
  /-- Empty read: the loop breaks and the client socket is closed. -/
  | closed
  /-- The line did not decode as `TASK|...|...`: logged, `continue`. -/
  | ignoredMalformed
  /-- A task was admitted: the dict now maps the task id to this client
  socket, and _assign_task_to_worker ran with the given outcome. -/
  | admitted (task_id task_data : List Char) (assign : AssignOutcome)
  deriving DecidableEq

/-- State after one iteration of the client loop. -/
structure ClientStep : Type where
  outcome : ClientLoopOutcome
  ledger : Ledger
  pool : Pool
  deriving DecidableEq

/-- One iteration of the client loop of LoadBalancer._handle_client: an
empty read breaks the loop; a line that does not strip-and-split
(maxsplit 2) to `TASK|task_id|task_data` is logged and skipped; otherwise
`task_to_client[task_id] = client_socket` (plain dict assignment, which
overwrites any existing entry) and the task is handed to
_assign_task_to_worker. -/
def handleClientLine (alive : Nat → Bool) (ledger : Ledger) (pool : Pool)
    (csock : Nat) (data : List Char) : ClientStep :=
  if data = [] then ⟨ClientLoopOutcome.closed, ledger, pool⟩
  else
    match pySplitMax '|' 2 (pyStrip data) with
    | [tag, task_id, task_data] =>
      if tag = ("TASK").data then
        let l := dictSet ledger task_id csock
        let r := assignTask alive pool task_id task_data
        ⟨ClientLoopOutcome.admitted task_id task_data r.1, l, r.2⟩
      else ⟨ClientLoopOutcome.ignoredMalformed, ledger, pool⟩
    | _ => ⟨ClientLoopOutcome.ignoredMalformed, ledger, pool⟩

/-! Helper lemmas about the string primitives. -/

lemma dropWhile_eq_self_of_head (p : Char → Bool) (m : List Char)
    (h : ∀ d ∈ m.head?, p d = false) : m.dropWhile p = m := by
  cases m with
  | nil => rfl
  | cons d rest => simp [List.dropWhile_cons, h d rfl]

/-- Stripping a line that starts with a non-space character and whose body
ends with a non-space character only removes the trailing newline. -/
lemma pyStrip_newline (c : Char) (l : List Char)
    (hc : pyIsSpace c = false)
    (hlast : ∀ d ∈ (c :: l).getLast?, pyIsSpace d = false) :
    pyStrip ((c :: l) ++ [ '\n' ]) = c :: l := by
  unfold pyStrip
  have h1 : ((c :: l) ++ [ '\n' ]).dropWhile pyIsSpace = (c :: l) ++ [ '\n' ] := by
    simp [List.dropWhile_cons, hc]
  rw [h1]
  have h2 : ((c :: l) ++ [ '\n' ]).reverse = '\n' :: (c :: l).reverse := by
    simp
  rw [h2, List.dropWhile_cons]
  have h3 : pyIsSpace '\n' = true := by decide
  rw [h3]
  simp only [if_true]
  have h4 : (c :: l).reverse.dropWhile pyIsSpace = (c :: l).reverse := by
    apply dropWhile_eq_self_of_head
    intro d hd
    rw [List.head?_reverse] at hd
    exact hlast d hd
  rw [h4, List.reverse_reverse]

lemma splitFirst_append (sep : Char) (a b : List Char) (h : sep ∉ a) :
    splitFirst sep (a ++ sep :: b) = some (a, b) := by
  induction a with
  | nil => simp [splitFirst]
  | cons c cs ih =>
    have hc : ¬(c = sep) := fun hh => h (by simp [hh])
    have ih' := ih (fun hm => h (List.mem_cons_of_mem c hm))
    simp [splitFirst, hc, ih']

/-- maxsplit-2 split of a three-field body whose first two fields are
separator-free: the last field takes the remainder verbatim. -/
lemma pySplitMax2_wire (tag id payload : List Char)
    (htag : '|' ∉ tag) (hid : '|' ∉ id) :
    pySplitMax '|' 2 (tag ++ ('|' :: (id ++ ('|' :: payload)))) = [tag, id, payload] := by
  have e1 := splitFirst_append '|' tag (id ++ ('|' :: payload)) htag
  have e2 := splitFirst_append '|' id payload hid
  simp [pySplitMax, e1, e2]

/-- A maxsplit-`n` split yields at most `n + 1` parts. -/
lemma pySplitMax_length (sep : Char) : ∀ (n : Nat) (s : List Char),
    (pySplitMax sep n s).length ≤ n + 1 := by
  intro n
  induction n with
  | zero => intro s; simp [pySplitMax]
  | succ k ih =>
    intro s
    unfold pySplitMax
    match splitFirst sep s with
    | none => simp
    | some (a, b) =>
      simp only [List.length_cons]
      exact Nat.succ_le_succ (ih b)

lemma pySplitAll_no_sep (sep : Char) (l : List Char) (h : sep ∉ l) :
    pySplitAll sep l = [l] := by
  induction l with
  | nil => rfl
  | cons c cs ih =>
    have hc : ¬(c = sep) := fun hh => h (by simp [hh])
    have ih' := ih (fun hm => h (List.mem_cons_of_mem c hm))
    simp [pySplitAll, hc, ih']

/-- Unbounded split of a two-field body with separator-free fields. -/
lemma pySplitAll_pipe (a b : List Char) (ha : '|' ∉ a) (hb : '|' ∉ b) :
    pySplitAll '|' (a ++ ('|' :: b)) = [a, b] := by
  induction a with
  | nil => simp [pySplitAll, pySplitAll_no_sep '|' b hb]
  | cons c cs ih =>
    have hc : ¬(c = '|') := fun hh => ha (by simp [hh])
    have ih' := ih (fun hm => ha (List.mem_cons_of_mem c hm))
    simp [pySplitAll, hc, ih']

/-- The last character of a wire-line body `pre ++ '|' :: payload` is not
whitespace, provided the payload does not end in whitespace. -/
lemma getLast?_pipe_body (pre payload : List Char)
    (hp : ∀ d ∈ payload.getLast?, pyIsSpace d = false) :
    ∀ d ∈ (pre ++ ('|' :: payload)).getLast?, pyIsSpace d = false := by
  intro d hd
  rw [List.getLast?_append_cons] at hd
  cases payload with
  | nil =>
    have : d = '|' := by
      simp [List.getLast?] at hd
      exact hd.symm
    rw [this]
    decide
  | cons p ps =>
    rw [List.getLast?_cons_cons] at hd
    exact hp d hd

/-- Strip-then-split (maxsplit 2) of a three-field wire line recovers the
three fields, for any payload that does not end in whitespace — even one
containing the delimiter. -/
lemma decode3_wire (c : Char) (trest id payload : List Char)
    (hc : pyIsSpace c = false)
    (htag : '|' ∉ (c :: trest))
    (hid : '|' ∉ id)
    (hp : ∀ d ∈ payload.getLast?, pyIsSpace d = false) :
    pySplitMax '|' 2
        (pyStrip ((c :: (trest ++ ('|' :: (id ++ ('|' :: payload))))) ++ [ '\n' ]))
      = [c :: trest, id, payload] := by
  have hlast : ∀ d ∈ (c :: (trest ++ ('|' :: (id ++ ('|' :: payload))))).getLast?,
      pyIsSpace d = false := by
    have := getLast?_pipe_body (c :: trest) (id ++ ('|' :: payload))
      (getLast?_pipe_body id payload hp)
    simpa using this
  rw [pyStrip_newline c _ hc hlast]
  have := pySplitMax2_wire (c :: trest) id payload htag hid
  simpa using this

lemma decode_taskMsg (id payload : List Char) (hid : '|' ∉ id)
    (hp : ∀ d ∈ payload.getLast?, pyIsSpace d = false) :
    pySplitMax '|' 2 (pyStrip (taskMsg id payload))
      = [("TASK").data, id, payload] := by
  have h := decode3_wire 'T' ("ASK").data id payload (by decide) (by decide) hid hp
  have hshape : taskMsg id payload
      = (('T' :: (("ASK").data ++ ('|' :: (id ++ ('|' :: payload))))) ++ [ '\n' ]) := by
    simp [taskMsg]
  rw [hshape]
  simpa using h

lemma decode_assignMsg (id payload : List Char) (hid : '|' ∉ id)
    (hp : ∀ d ∈ payload.getLast?, pyIsSpace d = false) :
    pySplitMax '|' 2 (pyStrip (assignMsg id payload))
      = [("ASSIGN_TASK").data, id, payload] := by
  have h := decode3_wire 'A' ("SSIGN_TASK").data id payload (by decide) (by decide) hid hp
  have hshape : assignMsg id payload
      = (('A' :: (("SSIGN_TASK").data ++ ('|' :: (id ++ ('|' :: payload))))) ++ [ '\n' ]) := by
    simp [assignMsg]
  rw [hshape]
  simpa using h

lemma decode_taskResultMsg (id payload : List Char) (hid : '|' ∉ id)
    (hp : ∀ d ∈ payload.getLast?, pyIsSpace d = false) :
    pySplitMax '|' 2 (pyStrip (taskResultMsg id payload))
      = [("TASK_RESULT").data, id, payload] := by
  have h := decode3_wire 'T' ("ASK_RESULT").data id payload (by decide) (by decide) hid hp
  have hshape : taskResultMsg id payload
      = (('T' :: (("ASK_RESULT").data ++ ('|' :: (id ++ ('|' :: payload))))) ++ [ '\n' ]) := by
    simp [taskResultMsg]
  rw [hshape]
  simpa using h

/-- Strip-then-split (no maxsplit) of a registration line recovers the two
fields when the worker id is pipe-free and does not end in whitespace. -/
lemma decode_registerMsg (wid : List Char) (hw : '|' ∉ wid)
    (hl : ∀ d ∈ wid.getLast?, pyIsSpace d = false) :
    pySplitAll '|' (pyStrip (registerMsg wid)) = [("REGISTER").data, wid] := by
  have hlast : ∀ d ∈ ('R' :: (("EGISTER").data ++ ('|' :: wid))).getLast?,
      pyIsSpace d = false := by
    have := getLast?_pipe_body ('R' :: ("EGISTER").data) wid hl
    simpa using this
  have hshape : registerMsg wid
      = (('R' :: (("EGISTER").data ++ ('|' :: wid))) ++ [ '\n' ]) := by
    simp [registerMsg]
  rw [hshape, pyStrip_newline 'R' _ (by decide) hlast]
  have := pySplitAll_pipe (('R' :: ("EGISTER").data)) wid (by decide) hw
  simpa using this

/-! Helper lemmas about the dict model. -/

lemma assocLookup_eq_none_iff (d : Ledger) (k : List Char) :
    assocLookup d k = none ↔ ∀ p ∈ d, p.1 ≠ k := by
  induction d with
  | nil => simp [assocLookup]
  | cons p rest ih =>
    obtain ⟨k', v⟩ := p
    by_cases h : k' = k
    · subst h
      simp [assocLookup]
    · simp [assocLookup, h, ih]

lemma mem_keysOf_iff (d : Ledger) (k : List Char) :
    k ∈ keysOf d ↔ (assocLookup d k).isSome := by
  induction d with
  | nil => simp [keysOf, assocLookup]
  | cons p rest ih =>
    obtain ⟨k', v⟩ := p
    have hkeys : keysOf ((k', v) :: rest) = k' :: keysOf rest := rfl
    rw [hkeys]
    by_cases h : k' = k
    · subst h
      simp [assocLookup]
    · have h' : ¬(k = k') := fun hh => h hh.symm
      simp [assocLookup, h, h', List.mem_cons, ih]

lemma assocErase_eq_self (d : Ledger) (k : List Char)
    (h : assocLookup d k = none) : assocErase d k = d := by
  apply List.filter_eq_self.mpr
  intro p hp
  have := (assocLookup_eq_none_iff d k).mp h p hp
  simpa using this

lemma assocLookup_assocErase (d : Ledger) (k : List Char) :
    assocLookup (assocErase d k) k = none := by
  rw [assocLookup_eq_none_iff]
  intro p hp
  have := List.of_mem_filter hp
  simpa using this

lemma assocLookup_mapReplace (d : Ledger) (k : List Char) (v : Nat)
    (h : (assocLookup d k).isSome) :
    assocLookup (d.map (fun p => if p.1 = k then (k, v) else p)) k = some v := by
  induction d with
  | nil => simp [assocLookup] at h
  | cons p rest ih =>
    obtain ⟨k', v'⟩ := p
    by_cases hk : k' = k
    · subst hk
      simp only [List.map_cons, if_true]
      simp [assocLookup]
    · have h' : (assocLookup rest k).isSome := by
        simpa [assocLookup, hk] using h
      simp only [List.map_cons]
      rw [if_neg hk]
      simp [assocLookup, hk, ih h']

lemma assocLookup_append_single (d : Ledger) (k : List Char) (v : Nat)
    (h : assocLookup d k = none) :
    assocLookup (d ++ [(k, v)]) k = some v := by
  induction d with
  | nil => simp [assocLookup]
  | cons p rest ih =>
    obtain ⟨k', v'⟩ := p
    by_cases hk : k' = k
    · subst hk
      simp [assocLookup] at h
    · simp only [assocLookup, hk] at h
      simp [assocLookup, hk, ih h]

/-- The dict write `d[k] = v` makes `d[k]` return `v`. -/
lemma assocLookup_dictSet (d : Ledger) (k : List Char) (v : Nat) :
    assocLookup (dictSet d k v) k = some v := by
  unfold dictSet
  by_cases h : (assocLookup d k).isSome
  · simp only [h, if_true]
    exact assocLookup_mapReplace d k v h
  · simp only [h, if_false]
    exact assocLookup_append_single d k v (Option.not_isSome_iff_eq_none.mp h)

/-- The dict write `d[k] = v` keeps the existing key list when `k` is
present (in-place overwrite) and appends `k` when it is not. -/
lemma keysOf_dictSet (d : Ledger) (k : List Char) (v : Nat) :
    keysOf (dictSet d k v)
      = if (assocLookup d k).isSome then keysOf d else keysOf d ++ [k] := by
  unfold dictSet
  by_cases h : (assocLookup d k).isSome
  · simp only [h, if_true]
    unfold keysOf
    rw [List.map_map]
    apply List.map_congr_left
    intro p _
    by_cases hk : p.1 = k
    · simp [hk]
    · simp [hk]
  · simp [h, keysOf]

/-- Dict writes preserve key uniqueness. -/
lemma nodup_keysOf_dictSet (d : Ledger) (k : List Char) (v : Nat)
    (h : (keysOf d).Nodup) : (keysOf (dictSet d k v)).Nodup := by
  rw [keysOf_dictSet]
  by_cases hs : (assocLookup d k).isSome
  · simpa [hs] using h
  · have hs' : (assocLookup d k).isSome = false := by simpa using hs
    rw [hs']
    simp only [Bool.false_eq_true, if_false]
    rw [List.nodup_append]
    refine ⟨h, List.nodup_singleton k, ?_⟩
    intro a ha hmem
    have hak : a = k := by simpa using hmem
    subst hak
    have := (mem_keysOf_iff d a).mp ha
    exact hs this

/-! Step-level lemmas about the session handlers. -/

lemma taskMsg_ne_nil (id payload : List Char) : taskMsg id payload ≠ [] := by
  simp [taskMsg]

lemma taskResultMsg_ne_nil (id payload : List Char) : taskResultMsg id payload ≠ [] := by
  simp [taskResultMsg]

lemma registerMsg_ne_nil (wid : List Char) : registerMsg wid ≠ [] := by
  simp [registerMsg]

/-- A well-formed `TASK` line is admitted: the dict is written and the
task handed to the dispatch path. -/
lemma handleClientLine_taskMsg (alive : Nat → Bool) (ledger : Ledger) (pool : Pool)
    (cs : Nat) (id payload : List Char) (hid : '|' ∉ id)
    (hp : ∀ d ∈ payload.getLast?, pyIsSpace d = false) :
    handleClientLine alive ledger pool cs (taskMsg id payload)
      = ⟨ClientLoopOutcome.admitted id payload (assignTask alive pool id payload).1,
         dictSet ledger id cs, (assignTask alive pool id payload).2⟩ := by
  unfold handleClientLine
  rw [if_neg (taskMsg_ne_nil id payload), decode_taskMsg id payload hid hp]
  simp

/-- A well-formed `TASK_RESULT` line is routed to the client and the
worker is put back at the tail of the pool. -/
lemma handleWorkerResult_taskResultMsg (alive : Nat → Bool) (ledger : Ledger)
    (pool : Pool) (ws : Nat) (wid : List Char) (t r : List Char) (ht : '|' ∉ t)
    (hr : ∀ d ∈ r.getLast?, pyIsSpace d = false) :
    handleWorkerResult alive ledger pool ws wid (taskResultMsg t r)
      = ⟨WorkerLoopOutcome.handled (sendResultToClient alive ledger t r).1,
         (sendResultToClient alive ledger t r).2, pool ++ [(ws, wid)]⟩ := by
  unfold handleWorkerResult
  rw [if_neg (taskResultMsg_ne_nil t r), decode_taskResultMsg t r ht hr]
  simp

/-- A well-formed `REGISTER` line from a live socket gets the ACK and
puts the worker at the tail of the pool. -/
lemma handleWorkerRegistration_registerMsg (alive : Nat → Bool) (pool : Pool)
    (s : Nat) (w : List Char) (halive : alive s = true) (hw : '|' ∉ w)
    (hl : ∀ d ∈ w.getLast?, pyIsSpace d = false) :
    handleWorkerRegistration alive pool s (registerMsg w)
      = (RegOutcome.registered w (ackMsg w), pool ++ [(s, w)]) := by
  unfold handleWorkerRegistration
  rw [if_neg (registerMsg_ne_nil w), decode_registerMsg w hw hl]
  simp [halive]

lemma assignTask_nil (alive : Nat → Bool) (t d : List Char) :
    assignTask alive [] t d = (AssignOutcome.retryScheduled retryDelaySecs t d, []) := rfl

lemma assignTask_cons_alive (alive : Nat → Bool) (w : WorkerEntry) (rest : Pool)
    (t d : List Char) (h : alive w.1 = true) :
    assignTask alive (w :: rest) t d
      = (AssignOutcome.assigned w.1 w.2 (assignMsg t d), rest) := by
  obtain ⟨s, wid⟩ := w
  simp only [assignTask, acquire]
  rw [h]
  simp

lemma assignTask_cons_dead (alive : Nat → Bool) (w : WorkerEntry) (rest : Pool)
    (t d : List Char) (h : alive w.1 = false) :
    assignTask alive (w :: rest) t d = (AssignOutcome.raised w.1 w.2, rest) := by
  obtain ⟨s, wid⟩ := w
  simp only [assignTask, acquire]
  rw [h]
  simp

/-- Sequential dispatch over a pool of live workers pairs the tasks with
the workers in pool order. -/
lemma dispatchAll_zip (alive : Nat → Bool) :
    ∀ (ts : List (List Char × List Char)) (ws : Pool),
    (∀ w ∈ ws, alive w.1 = true) → ts.length = ws.length →
    dispatchAll alive ws ts
      = (List.zipWith
          (fun t w => AssignOutcome.assigned w.1 w.2 (assignMsg t.1 t.2)) ts ws, []) := by
  intro ts
  induction ts with
  | nil =>
    intro ws _ hlen
    cases ws with
    | nil => simp [dispatchAll]
    | cons w ws' => simp at hlen
  | cons t ts' ih =>
    intro ws ha hlen
    cases ws with
    | nil => simp at hlen
    | cons w ws' =>
      have hw : alive w.1 = true := ha w (by simp)
      have ha' : ∀ x ∈ ws', alive x.1 = true := fun x hx => ha x (by simp [hx])
      have hlen' : ts'.length = ws'.length := by simpa using hlen
      simp [dispatchAll, assignTask_cons_alive alive w ws' t.1 t.2 hw, ih ws' ha' hlen']

/-- Registering a batch of well-formed workers appends them in order. -/
lemma registerAll_append (alive : Nat → Bool) :
    ∀ (ws : List WorkerEntry) (pool : Pool),
    (∀ w ∈ ws, alive w.1 = true) →
    (∀ w ∈ ws, '|' ∉ w.2 ∧ ∀ d ∈ w.2.getLast?, pyIsSpace d = false) →
    registerAll alive pool ws = pool ++ ws := by
  intro ws
  induction ws with
  | nil =>
    intro pool _ _
    simp [registerAll]
  | cons w rest ih =>
    intro pool ha hf
    obtain ⟨s, wid⟩ := w
    have h1 : alive s = true := ha (s, wid) (by simp)
    obtain ⟨h2, h3⟩ := hf (s, wid) (by simp)
    have hstep := handleWorkerRegistration_registerMsg alive pool s wid h1 h2 h3
    have ha' : ∀ x ∈ rest, alive x.1 = true := fun x hx => ha x (by simp [hx])
    have hf' : ∀ x ∈ rest, '|' ∉ x.2 ∧ ∀ d ∈ x.2.getLast?, pyIsSpace d = false :=
      fun x hx => hf x (by simp [hx])
    calc registerAll alive pool ((s, wid) :: rest)
        = registerAll alive (handleWorkerRegistration alive pool s (registerMsg wid)).2
            rest := rfl
      _ = registerAll alive (pool ++ [(s, wid)]) rest := by rw [hstep]
      _ = (pool ++ [(s, wid)]) ++ rest := ih (pool ++ [(s, wid)]) ha' hf'
      _ = pool ++ ((s, wid) :: rest) := by simp

/-- Pairing a list with an equally long list and keeping the right
components gives back the right list. -/
lemma zipWith_right_id {α β : Type} :
    ∀ (ts : List α) (ws : List β), ts.length = ws.length →
    List.zipWith (fun _ w => w) ts ws = ws := by
  intro ts
  induction ts with
  | nil =>
    intro ws hlen
    cases ws with
    | nil => rfl
    | cons w ws' => simp at hlen
  | cons t ts' ih =>
    intro ws hlen
    cases ws with
    | nil => simp at hlen
    | cons w ws' =>
      have hlen' : ts'.length = ws'.length := by simpa using hlen
      simp [ih ws' hlen']

/-- Whatever the routing outcome, `_send_result_to_client` leaves the dict
with the task id popped. -/
lemma sendResultToClient_ledger (alive : Nat → Bool) (ledger : Ledger)
    (t r : List Char) :
    (sendResultToClient alive ledger t r).2 = assocErase ledger t := by
  unfold sendResultToClient dictPop
  cases hl : assocLookup ledger t with
  | none => simp
  | some cs =>
    by_cases hc : alive cs
    · simp [hc]
    · simp [hc]

/-- A batch of pieces that all parse yields some int list. -/
lemma parseInts_isSome_of_all (l : List (List Char))
    (h : ∀ x ∈ l, (pyInt (pyStrip x)).isSome) : ∃ ns, parseInts l = some ns := by
  induction l with
  | nil => exact ⟨[], rfl⟩
  | cons x xs ih =>
    obtain ⟨n, hn⟩ := Option.isSome_iff_exists.mp (h x (by simp))
    obtain ⟨ns, hns⟩ := ih (fun y hy => h y (by simp [hy]))
    exact ⟨n :: ns, by simp [parseInts, hn, hns]⟩

/-- One unparsable piece makes the whole comprehension raise. -/
lemma parseInts_none_of_bad (l : List (List Char)) (x : List Char) (hx : x ∈ l)
    (hbad : pyInt (pyStrip x) = none) : parseInts l = none := by
  induction l with
  | nil => cases hx
  | cons y ys ih =>
    rcases List.mem_cons.mp hx with h | h
    · subst h
      simp [parseInts, hbad]
    · cases hy : pyInt (pyStrip y) with
      | none => simp [parseInts, hy]
      | some n => simp [parseInts, hy, ih h]

/-- The error branch of process_task starts with the six characters
`ERROR:`. -/
lemma process_task_error_take (s : List Char)
    (h : parseInts (pySplitAll ',' s) = none) :
    (process_task s).take 6 = ("ERROR:").data := by
  simp only [process_task, h]
  rw [List.take_append_of_le_length (by simp),
    List.take_append_of_le_length (by simp),
    List.take_append_of_le_length (by decide)]
  decide

/-! Claim theorems. -/

/-- C1, counterexample.  The claim says the Ledger's put rejects a task id
that is already present.  In the source, task admission runs
`self.task_to_client[task_id] = client_socket`, a plain dict assignment:
admitting `t1` from client 2 while the dict maps `t1` to client 1 is not
rejected — the task is admitted and the existing mapping is silently
replaced by client 2. -/
theorem C1_put_rejects_duplicate_cex :
    (handleClientLine (fun _ => true) [(("t1").data, 1)] [] 2
        (taskMsg ("t1").data ("9").data)).ledger = [(("t1").data, 2)] ∧
    (handleClientLine (fun _ => true) [(("t1").data, 1)] [] 2
        (taskMsg ("t1").data ("9").data)).outcome
      = ClientLoopOutcome.admitted ("t1").data ("9").data
          (AssignOutcome.retryScheduled 1 ("t1").data ("9").data) ∧
    assocLookup (handleClientLine (fun _ => true) [(("t1").data, 1)] [] 2
        (taskMsg ("t1").data ("9").data)).ledger ("t1").data ≠ some 1 := by
  decide

/-- C1, amended.  The put operation (dict assignment) never fails: on an
existing id it silently replaces the mapping in place; the Ledger still
never holds two simultaneous entries for the same id, because the key set
is preserved (overwrite) or extended by the new key (insert) and stays
duplicate-free. -/
theorem C1_put_overwrites_amended (d : Ledger) (k : List Char) (v : Nat)
    (h : (keysOf d).Nodup) :
    assocLookup (dictSet d k v) k = some v ∧
    (keysOf (dictSet d k v)).Nodup ∧
    keysOf (dictSet d k v) = if k ∈ keysOf d then keysOf d else keysOf d ++ [k] := by
  refine ⟨assocLookup_dictSet d k v, nodup_keysOf_dictSet d k v h, ?_⟩
  rw [keysOf_dictSet]
  by_cases hm : k ∈ keysOf d
  · simp [hm, (mem_keysOf_iff d k).mp hm]
  · have hs : ¬(assocLookup d k).isSome := fun hs => hm ((mem_keysOf_iff d k).mpr hs)
    simp [hm, hs]

/-- C1 witness: the amended statement evaluated on a one-entry ledger. -/
theorem C1_put_overwrites_amended_witness :
    (keysOf ([(("t1").data, 1)] : Ledger)).Nodup ∧
    (assocLookup (dictSet [(("t1").data, 1)] ("t1").data 2) ("t1").data = some 2 ∧
     (keysOf (dictSet [(("t1").data, 1)] ("t1").data 2)).Nodup ∧
     keysOf (dictSet [(("t1").data, 1)] ("t1").data 2)
       = if ("t1").data ∈ keysOf ([(("t1").data, 1)] : Ledger)
         then keysOf ([(("t1").data, 1)] : Ledger)
         else keysOf ([(("t1").data, 1)] : Ledger) ++ [("t1").data]) :=
  ⟨by decide, C1_put_overwrites_amended [(("t1").data, 1)] ("t1").data 2 (by decide)⟩

/-- C2: the code gap behind the claim.  With one idle worker `w1` in the
pool whose connection has died (socket 1 no longer alive), the
_handle_worker loop observes the empty read and breaks (outcome closed),
but the pool still contains the dead worker — the source only closes the
socket — so the very next acquire returns the dead worker and the dispatch
raises on the send.  The claim (dead idle executors are removed and never
selected again) states the documented intent; the code does not implement
the removal. -/
theorem C2_idle_disconnect_leaves_pool :
    (handleWorkerResult (fun s => decide (s ≠ 1)) [] [(1, ("w1").data)] 1
        ("w1").data []).outcome = WorkerLoopOutcome.closed ∧
    (handleWorkerResult (fun s => decide (s ≠ 1)) [] [(1, ("w1").data)] 1
        ("w1").data []).pool = [(1, ("w1").data)] ∧
    (acquire acquireTimeoutSecs [(1, ("w1").data)]).1 = some (1, ("w1").data) ∧
    (assignTask (fun s => decide (s ≠ 1)) [(1, ("w1").data)] ("t2").data
        ("8").data).1 = AssignOutcome.raised 1 ("w1").data := by
  decide

/-- C3, counterexample.  The claim says a transmit failure makes the
dispatch engine evict the executor and retry with another executor.  With
dead worker w1 at the head of the pool and live worker w2 behind it, the
dispatch outcome is the propagated send exception: the task is neither
assigned to w2 nor rescheduled — only queue.Empty is caught in
_assign_task_to_worker. -/
theorem C3_transmit_failure_cex :
    assignTask (fun s => decide (s = 2)) [(1, ("w1").data), (2, ("w2").data)]
        ("t1").data ("5").data
      = (AssignOutcome.raised 1 ("w1").data, [(2, ("w2").data)]) ∧
    (assignTask (fun s => decide (s = 2)) [(1, ("w1").data), (2, ("w2").data)]
        ("t1").data ("5").data).1
      ≠ AssignOutcome.assigned 2 ("w2").data (assignMsg ("t1").data ("5").data) ∧
    (assignTask (fun s => decide (s = 2)) [(1, ("w1").data), (2, ("w2").data)]
        ("t1").data ("5").data).1
      ≠ AssignOutcome.retryScheduled retryDelaySecs ("t1").data ("5").data := by
  decide

/-- C3, amended.  When the send to the acquired executor fails, the
exception propagates out of the dispatch call (outcome raised); the failed
executor stays out of the pool only because acquire already removed it,
and no retry with another executor takes place — retry is scheduled only
on acquisition timeout. -/
theorem C3_transmit_failure_amended (alive : Nat → Bool) (w : WorkerEntry)
    (rest : Pool) (t d : List Char) (h : alive w.1 = false) :
    assignTask alive (w :: rest) t d = (AssignOutcome.raised w.1 w.2, rest) :=
  assignTask_cons_dead alive w rest t d h

/-- C3 witness: the amended statement evaluated on a dead head worker. -/
theorem C3_transmit_failure_amended_witness :
    (fun _ : Nat => false) (3, ("w").data).1 = false ∧
    assignTask (fun _ : Nat => false) [(3, ("w").data)] ("t").data ("1").data
      = (AssignOutcome.raised (3, ("w").data).1 (3, ("w").data).2, []) :=
  ⟨rfl, C3_transmit_failure_amended (fun _ => false) (3, ("w").data) [] ("t").data
    ("1").data rfl⟩

/-- C4: the full happy-path scenario from the spec.  The broker admits
`TASK|t1|1,2,3,4,5` from client socket 7, sends `ASSIGN_TASK|t1|1,2,3,4,5`
to the only idle worker w1 (socket 10); the worker decodes it, computes
the sum 15 and replies `TASK_RESULT|t1|15`; the broker routes
`RESULT|t1|15` to client 7 and puts w1 back into the pool. -/
theorem C4_happy_path_scenario :
    handleClientLine (fun _ => true) [] [(10, ("w1").data)] 7
        (taskMsg ("t1").data ("1,2,3,4,5").data)
      = ⟨ClientLoopOutcome.admitted ("t1").data ("1,2,3,4,5").data
           (AssignOutcome.assigned 10 ("w1").data
             (assignMsg ("t1").data ("1,2,3,4,5").data)),
         [(("t1").data, 7)], []⟩ ∧
    workerHandleAssign (assignMsg ("t1").data ("1,2,3,4,5").data)
      = some (taskResultMsg ("t1").data ("15").data) ∧
    process_task ("1,2,3,4,5").data = ("15").data ∧
    handleWorkerResult (fun _ => true) [(("t1").data, 7)] [] 10 ("w1").data
        (taskResultMsg ("t1").data ("15").data)
      = ⟨WorkerLoopOutcome.handled
           (SendOutcome.sent 7 (resultMsg ("t1").data ("15").data)), [],
         [(10, ("w1").data)]⟩ := by
  decide

/-- C5: the round-robin property.  Registering N well-formed workers into
an empty pool puts them in the pool in registration order; dispatching N
tasks sequentially with no completions in between (all sockets live)
produces exactly the pairing of the k-th task with the k-th registered
worker — the assignment list is the zip of tasks with the pool — and the
assigned workers, in order, are exactly the registered workers, so each
receives exactly one task. -/
theorem C5_round_robin (alive : Nat → Bool) (ws : List WorkerEntry)
    (ts : List (List Char × List Char))
    (ha : ∀ w ∈ ws, alive w.1 = true)
    (hf : ∀ w ∈ ws, '|' ∉ w.2 ∧ ∀ d ∈ w.2.getLast?, pyIsSpace d = false)
    (hlen : ts.length = ws.length) :
    registerAll alive [] ws = ws ∧
    (dispatchAll alive ws ts).1
      = List.zipWith
          (fun t w => AssignOutcome.assigned w.1 w.2 (assignMsg t.1 t.2)) ts ws ∧
    ((dispatchAll alive ws ts).1).map
        (fun o => match o with
          | AssignOutcome.assigned s wid _ => (s, wid)
          | AssignOutcome.retryScheduled _ _ _ => (0, [])
          | AssignOutcome.raised _ _ => (0, [])) = ws := by
  have hreg := registerAll_append alive ws [] ha hf
  have hdisp := dispatchAll_zip alive ts ws ha hlen
  refine ⟨by simpa using hreg, by rw [hdisp], ?_⟩
  rw [hdisp]
  simp only [List.map_zipWith]
  exact zipWith_right_id ts ws hlen

/-- C5 witness: two workers registered in order a, b and two tasks. -/
theorem C5_round_robin_witness :
    (∀ w ∈ [(1, ("a").data), (2, ("b").data)], (fun _ : Nat => true) w.1 = true) ∧
    (∀ w ∈ [(1, ("a").data), (2, ("b").data)],
       '|' ∉ w.2 ∧ ∀ d ∈ w.2.getLast?, pyIsSpace d = false) ∧
    ([(("t1").data, ("5").data), (("t2").data, ("6").data)].length
       = [(1, ("a").data), (2, ("b").data)].length) ∧
    (registerAll (fun _ => true) [] [(1, ("a").data), (2, ("b").data)]
        = [(1, ("a").data), (2, ("b").data)] ∧
     (dispatchAll (fun _ => true) [(1, ("a").data), (2, ("b").data)]
        [(("t1").data, ("5").data), (("t2").data, ("6").data)]).1
       = List.zipWith
           (fun t w => AssignOutcome.assigned w.1 w.2 (assignMsg t.1 t.2))
           [(("t1").data, ("5").data), (("t2").data, ("6").data)]
           [(1, ("a").data), (2, ("b").data)] ∧
     ((dispatchAll (fun _ => true) [(1, ("a").data), (2, ("b").data)]
        [(("t1").data, ("5").data), (("t2").data, ("6").data)]).1).map
         (fun o => match o with
           | AssignOutcome.assigned s wid _ => (s, wid)
           | AssignOutcome.retryScheduled _ _ _ => (0, [])
           | AssignOutcome.raised _ _ => (0, []))
       = [(1, ("a").data), (2, ("b").data)]) :=
  ⟨by decide, by decide, by decide,
   C5_round_robin (fun _ => true) [(1, ("a").data), (2, ("b").data)]
     [(("t1").data, ("5").data), (("t2").data, ("6").data)]
     (by decide) (by decide) (by decide)⟩

/-- C6: the routing of results.  Processing `TASK_RESULT|t|r` pops `t`
from the task-to-client dict, so after the step no mapping for `t`
remains (the mapping is removed atomically with the read, hence at most
one RESULT per id); when the id is unknown the step yields the logged
noClient outcome with the dict unchanged and the session continuing — the
worker is put back into the pool either way — and the same result arriving
a second time is always discarded as noClient. -/
theorem C6_result_routed_at_most_once (alive : Nat → Bool) (ledger : Ledger)
    (pool : Pool) (ws : Nat) (wid : List Char) (t r : List Char)
    (ht : '|' ∉ t) (hr : ∀ d ∈ r.getLast?, pyIsSpace d = false) :
    assocLookup
        (handleWorkerResult alive ledger pool ws wid (taskResultMsg t r)).ledger t
      = none ∧
    (handleWorkerResult alive ledger pool ws wid (taskResultMsg t r)).pool
      = pool ++ [(ws, wid)] ∧
    (assocLookup ledger t = none →
      handleWorkerResult alive ledger pool ws wid (taskResultMsg t r)
        = ⟨WorkerLoopOutcome.handled SendOutcome.noClient, ledger,
           pool ++ [(ws, wid)]⟩) ∧
    (handleWorkerResult alive
        (handleWorkerResult alive ledger pool ws wid (taskResultMsg t r)).ledger
        (handleWorkerResult alive ledger pool ws wid (taskResultMsg t r)).pool
        ws wid (taskResultMsg t r)).outcome
      = WorkerLoopOutcome.handled SendOutcome.noClient := by
  have hstep := handleWorkerResult_taskResultMsg alive ledger pool ws wid t r ht hr
  have hledger :
      (handleWorkerResult alive ledger pool ws wid (taskResultMsg t r)).ledger
        = assocErase ledger t := by
    rw [hstep]
    exact sendResultToClient_ledger alive ledger t r
  have hnone : assocLookup
      (handleWorkerResult alive ledger pool ws wid (taskResultMsg t r)).ledger t
        = none := by
    rw [hledger]
    exact assocLookup_assocErase ledger t
  refine ⟨hnone, by rw [hstep], ?_, ?_⟩
  · intro habs
    rw [hstep]
    have herase : assocErase ledger t = ledger := assocErase_eq_self ledger t habs
    have hsend : sendResultToClient alive ledger t r = (SendOutcome.noClient, ledger) := by
      unfold sendResultToClient dictPop
      rw [habs, herase]
    rw [hsend]
  · have hstep2 := handleWorkerResult_taskResultMsg alive
      (handleWorkerResult alive ledger pool ws wid (taskResultMsg t r)).ledger
      (handleWorkerResult alive ledger pool ws wid (taskResultMsg t r)).pool
      ws wid t r ht hr
    rw [hstep2]
    have hsend2 : sendResultToClient alive
        (handleWorkerResult alive ledger pool ws wid (taskResultMsg t r)).ledger t r
          = (SendOutcome.noClient,
             assocErase
               (handleWorkerResult alive ledger pool ws wid (taskResultMsg t r)).ledger
               t) := by
      unfold sendResultToClient dictPop
      rw [hnone]
    rw [hsend2]

/-- C6 witness: a ledger holding t1 for client 7. -/
theorem C6_result_routed_at_most_once_witness :
    ('|' ∉ ("t1").data) ∧
    (∀ d ∈ (("15").data).getLast?, pyIsSpace d = false) ∧
    (assocLookup
        (handleWorkerResult (fun _ => true) [(("t1").data, 7)] [] 10 ("w1").data
          (taskResultMsg ("t1").data ("15").data)).ledger ("t1").data
      = none ∧
     (handleWorkerResult (fun _ => true) [(("t1").data, 7)] [] 10 ("w1").data
          (taskResultMsg ("t1").data ("15").data)).pool
      = [] ++ [(10, ("w1").data)] ∧
     (assocLookup [(("t1").data, 7)] ("t1").data = none →
       handleWorkerResult (fun _ => true) [(("t1").data, 7)] [] 10 ("w1").data
           (taskResultMsg ("t1").data ("15").data)
         = ⟨WorkerLoopOutcome.handled SendOutcome.noClient, [(("t1").data, 7)],
            [] ++ [(10, ("w1").data)]⟩) ∧
     (handleWorkerResult (fun _ => true)
        (handleWorkerResult (fun _ => true) [(("t1").data, 7)] [] 10 ("w1").data
          (taskResultMsg ("t1").data ("15").data)).ledger
        (handleWorkerResult (fun _ => true) [(("t1").data, 7)] [] 10 ("w1").data
          (taskResultMsg ("t1").data ("15").data)).pool
        10 ("w1").data (taskResultMsg ("t1").data ("15").data)).outcome
      = WorkerLoopOutcome.handled SendOutcome.noClient) :=
  ⟨by decide, by decide,
   C6_result_routed_at_most_once (fun _ => true) [(("t1").data, 7)] [] 10
     ("w1").data ("t1").data ("15").data (by decide) (by decide)⟩

/-- C7: dispatch with an empty pool.  The acquire on the empty pool yields
the explicit empty outcome (after its bounded 5-second timeout constant),
and the dispatch engine then schedules a retry of the same task — same id
and same payload — after the fixed 1-second backoff, rather than dropping
it. -/
theorem C7_empty_pool_schedules_retry (alive : Nat → Bool) (t d : List Char) :
    acquire acquireTimeoutSecs [] = (none, []) ∧
    acquireTimeoutSecs = 5 ∧
    assignTask alive [] t d = (AssignOutcome.retryScheduled retryDelaySecs t d, []) ∧
    retryDelaySecs = 1 :=
  ⟨rfl, rfl, rfl, rfl⟩

/-- C8, counterexample.  The claim says the final field takes the
remainder of the line verbatim for every well-formed three-field wire
message.  The receiver strips the whole line before splitting, so the
well-formed message `TASK|t1|1|2 \n` (payload `1|2 `, which a sender may
legally produce since payloads are unconstrained) decodes to final field
`1|2` — the trailing space of the payload is lost, not verbatim.  (The
embedded pipe, however, is preserved.) -/
theorem C8_verbatim_cex :
    pySplitMax '|' 2 (pyStrip (taskMsg ("t1").data ("1|2 ").data))
      = [("TASK").data, ("t1").data, ("1|2").data] ∧
    ("1|2").data ≠ ("1|2 ").data := by
  decide

/-- C8, amended.  Decoding splits the stripped line into at most three
parts, and for every three-field wire message (TASK, ASSIGN_TASK,
TASK_RESULT) whose id is delimiter-free and whose payload does not end in
whitespace, the final field is exactly the payload — in particular a
payload containing the `|` delimiter is preserved intact; only leading or
trailing whitespace of the whole line (the line terminator and any
trailing whitespace of the payload) is removed by the strip. -/
theorem C8_decode_amended (id payload : List Char) (hid : '|' ∉ id)
    (hp : ∀ d ∈ payload.getLast?, pyIsSpace d = false) :
    (∀ data : List Char, (pySplitMax '|' 2 data).length ≤ 3) ∧
    pySplitMax '|' 2 (pyStrip (taskMsg id payload))
      = [("TASK").data, id, payload] ∧
    pySplitMax '|' 2 (pyStrip (assignMsg id payload))
      = [("ASSIGN_TASK").data, id, payload] ∧
    pySplitMax '|' 2 (pyStrip (taskResultMsg id payload))
      = [("TASK_RESULT").data, id, payload] :=
  ⟨fun data => pySplitMax_length '|' 2 data,
   decode_taskMsg id payload hid hp,
   decode_assignMsg id payload hid hp,
   decode_taskResultMsg id payload hid hp⟩

/-- C8 witness: a payload containing the delimiter survives decoding. -/
theorem C8_decode_amended_witness :
    ('|' ∉ ("t1").data) ∧
    (∀ d ∈ (("a|b|c").data).getLast?, pyIsSpace d = false) ∧
    ((∀ data : List Char, (pySplitMax '|' 2 data).length ≤ 3) ∧
     pySplitMax '|' 2 (pyStrip (taskMsg ("t1").data ("a|b|c").data))
       = [("TASK").data, ("t1").data, ("a|b|c").data] ∧
     pySplitMax '|' 2 (pyStrip (assignMsg ("t1").data ("a|b|c").data))
       = [("ASSIGN_TASK").data, ("t1").data, ("a|b|c").data] ∧
     pySplitMax '|' 2 (pyStrip (taskResultMsg ("t1").data ("a|b|c").data))
       = [("TASK_RESULT").data, ("t1").data, ("a|b|c").data]) :=
  ⟨by decide, by decide,
   C8_decode_amended ("t1").data ("a|b|c").data (by decide) (by decide)⟩

/-- C9: the registration handshake.  A first line that is a well-formed
`REGISTER|worker_id` (live socket, pipe-free id not ending in whitespace)
gets the `ACK|worker_id` reply and the worker enters the pool Idle at the
tail; any other first message — empty read, wrong tag or wrong field
count, i.e. anything whose stripped pipe-split is not `[REGISTER, wid]` —
aborts the session with the pool untouched. -/
theorem C9_registration_handshake (alive : Nat → Bool) (pool : Pool) (s : Nat)
    (w data : List Char) :
    (alive s = true → '|' ∉ w → (∀ d ∈ w.getLast?, pyIsSpace d = false) →
      handleWorkerRegistration alive pool s (registerMsg w)
        = (RegOutcome.registered w (ackMsg w), pool ++ [(s, w)])) ∧
    ((data = [] ∨
        ∀ wid : List Char, pySplitAll '|' (pyStrip data) ≠ [("REGISTER").data, wid]) →
      handleWorkerRegistration alive pool s data = (RegOutcome.aborted, pool)) := by
  constructor
  · intro h1 h2 h3
    exact handleWorkerRegistration_registerMsg alive pool s w h1 h2 h3
  · intro hbad
    rcases hbad with hnil | hform
    · simp [handleWorkerRegistration, hnil]
    · unfold handleWorkerRegistration
      by_cases hd : data = []
      · simp [hd]
      · rw [if_neg hd]
        cases hps : pySplitAll '|' (pyStrip data) with
        | nil => rfl
        | cons a as =>
          cases as with
          | nil => rfl
          | cons b bs =>
            cases bs with
            | nil =>
              by_cases ha : a = ("REGISTER").data
              · exact absurd (by rw [hps, ha]) (hform b)
              · simp [ha]
            | cons c cs => rfl

/-- C9 witness: a good registration and a wrong-tag first message. -/
theorem C9_registration_handshake_witness :
    ((fun _ : Nat => true) 3 = true) ∧
    ('|' ∉ ("w1").data) ∧
    (∀ d ∈ (("w1").data).getLast?, pyIsSpace d = false) ∧
    handleWorkerRegistration (fun _ => true) [] 3 (registerMsg ("w1").data)
      = (RegOutcome.registered ("w1").data (ackMsg ("w1").data), [] ++ [(3, ("w1").data)]) ∧
    handleWorkerRegistration (fun _ => true) [] 3 (("HELLO|x\n").data)
      = (RegOutcome.aborted, []) :=
  ⟨rfl, by decide, by decide,
   (C9_registration_handshake (fun _ => true) [] 3 ("w1").data
      (("HELLO|x\n").data)).1 rfl (by decide) (by decide),
   (C9_registration_handshake (fun _ => true) [] 3 ("w1").data
      (("HELLO|x\n").data)).2
     (Or.inr (by
       intro wid h
       have h1 : pySplitAll '|' (pyStrip (("HELLO|x\n").data))
           = [("HELLO").data, ("x").data] := by decide
       rw [h1] at h
       exact absurd (List.cons.inj h).1 (by decide)))⟩

/-- C10: process_task is a total function of the payload string.  When
every comma-separated piece parses as a (whitespace-padded) Python int
literal the result is the decimal string of the sum; when any piece fails
to parse the result starts with `ERROR:`; and in every case the result is
one of those two shapes, so the worker always has a result string to send
back in its TASK_RESULT. -/
theorem C10_process_task_total (s : List Char) :
    ((∀ x ∈ pySplitAll ',' s, (pyInt (pyStrip x)).isSome) →
       ∃ ns : List Int, parseInts (pySplitAll ',' s) = some ns ∧
         process_task s = intStr ns.sum) ∧
    ((∃ x ∈ pySplitAll ',' s, pyInt (pyStrip x) = none) →
       parseInts (pySplitAll ',' s) = none ∧
         (process_task s).take 6 = ("ERROR:").data) ∧
    ((process_task s).take 6 = ("ERROR:").data ∨
       ∃ n : Int, process_task s = intStr n) := by
  refine ⟨?_, ?_, ?_⟩
  · intro hall
    obtain ⟨ns, hns⟩ := parseInts_isSome_of_all (pySplitAll ',' s) hall
    exact ⟨ns, hns, by simp [process_task, hns]⟩
  · intro hbad
    obtain ⟨x, hx, hxnone⟩ := hbad
    have hnone := parseInts_none_of_bad (pySplitAll ',' s) x hx hxnone
    exact ⟨hnone, process_task_error_take s hnone⟩
  · cases hp : parseInts (pySplitAll ',' s) with
    | none => exact Or.inl (process_task_error_take s hp)
    | some ns => exact Or.inr ⟨ns.sum, by simp [process_task, hp]⟩

/-- C10 witness: a valid sum with padding and negatives, and a payload
that fails to parse. -/
theorem C10_process_task_total_witness :
    (∃ ns : List Int, parseInts (pySplitAll ',' (("1, 2,-3").data)) = some ns ∧
       process_task (("1, 2,-3").data) = intStr ns.sum) ∧
    (parseInts (pySplitAll ',' (("4,x").data)) = none ∧
       (process_task (("4,x").data)).take 6 = ("ERROR:").data) :=
  ⟨(C10_process_task_total (("1, 2,-3").data)).1 (by decide),
   (C10_process_task_total (("4,x").data)).2.1
     ⟨("x").data, by decide, by decide⟩⟩

end PFO3
